import Mathlib

/-!
Verification development for the wechat-pay client library (src/payment.ts).

The library manipulates flat JavaScript objects mapping field names to scalar
values.  We embed such an object as an association list of string keys and
`JsValue`s; JavaScript guarantees key uniqueness, which appears below as
`(objKeys m).Nodup` hypotheses where a theorem needs it.  Property lookup
(`object[key]`) is first-match lookup returning `undefined` for absent keys.

External collaborators (the `md5`/`sha1` digest libraries and
`encodeURIComponent`) are opaque string functions, bundled in `ExternalFns`.
The XML adapter is, per the spec, an opaque bidirectional mapping between flat
string maps and XML documents, so responses enter `validateFields` as field
maps and the transport is a value of `TransportResult`.

JavaScript's default `Array.prototype.sort` compares strings by UTF-16 code
units; for strings of basic-multilingual-plane characters (in particular the
ASCII field names used throughout) this coincides with the code-point
lexicographic order `jsLe` defined here over `List Char`.
-/

namespace WechatPay

/-- A JavaScript scalar value as it can appear in a field map of this library:
`undefined`, `null`, a string, or an (integral) number. -/
inductive JsValue where
  | undef
  | null
  | str (s : String)
  | num (n : Int)
deriving DecidableEq

/-- JavaScript string coercion of a scalar, as performed by `"" + v` and by
`v.toString()` for the values this library handles. -/
def jsValueToString : JsValue → String
  | JsValue.undef => "undefined"
  | JsValue.null => "null"
  | JsValue.str s => s
  | JsValue.num n => toString n

/-- JavaScript truthiness of a scalar value. -/
def jsTruthy : JsValue → Bool
  | JsValue.undef => false
  | JsValue.null => false
  | JsValue.str s => s != ""
  | JsValue.num n => n != 0

/-- Strict equality (`===`) between a known string and a scalar value. -/
def strictEqStr (s : String) (v : JsValue) : Bool :=
  match v with
  | JsValue.str t => s == t
  | _ => false

/-- A flat JavaScript object: field name to scalar value, keys unique. -/
abbrev FieldMap := List (String × JsValue)

/-- The keys of an object in insertion order (`Object.keys`). -/
def objKeys (object : FieldMap) : List String := object.map Prod.fst

/-- Whether a key is present (`key in object`). -/
def hasKey (object : FieldMap) (key : String) : Bool :=
  (objKeys object).contains key

/-- Property read `object[key]`: first match, `undefined` when absent. -/
def jsLookup (object : FieldMap) (key : String) : JsValue :=
  match object.find? (fun kv => kv.1 == key) with
  | some kv => kv.2
  | none => JsValue.undef

/-- `delete object[key]`. -/
def removeKey (object : FieldMap) (key : String) : FieldMap :=
  object.filter (fun kv => kv.1 != key)

/-- Property write `object[key] = v`: overwrite in place, or append. -/
def setKey (object : FieldMap) (key : String) (v : JsValue) : FieldMap :=
  if hasKey object key then
    object.map (fun kv => if kv.1 == key then (key, v) else kv)
  else
    object ++ [(key, v)]

/-- underscore's `_.extend(base, obj)`: assign every field of `obj` onto
`base`, in `obj`'s key order. -/
def jsExtend (base : FieldMap) (obj : FieldMap) : FieldMap :=
  obj.foldl (fun acc kv => setKey acc kv.1 kv.2) base

/-- Code-point lexicographic order on character lists; on BMP-only strings it
agrees with the UTF-16 code-unit comparison of JavaScript's default sort. -/
def charListLe : List Char → List Char → Bool
  | [], _ => true
  | _ :: _, [] => false
  | a :: as, b :: bs => if a = b then charListLe as bs else decide (a < b)

/-- String comparator used to embed JavaScript's default `sort()` on keys. -/
def jsLe (a b : String) : Bool := charListLe a.data b.data

/-- `jsLe` as a relation, for use with Mathlib's `List.insertionSort`. -/
def strLeProp (a b : String) : Prop := jsLe a b = true

instance : DecidableRel strLeProp := fun a b =>
  inferInstanceAs (Decidable (jsLe a b = true))

/-- Key order lifted to key/value pairs. -/
def pairLe (a b : String × JsValue) : Prop := jsLe a.1 b.1 = true

instance : DecidableRel pairLe := fun a b =>
  inferInstanceAs (Decidable (jsLe a.1 b.1 = true))

/-- `Array.prototype.join("&")`. -/
def joinAmp : List String → String
  | [] => ""
  | [s] => s
  | s :: rest => s ++ "&" ++ joinAmp rest

/-- `Array.prototype.join(",")`. -/
def joinComma : List String → String
  | [] => ""
  | [s] => s
  | s :: rest => s ++ "," ++ joinComma rest

/-- `String.prototype.split("|")` for the one-character separator used by the
required-field entries. -/
def splitPipeAux : List Char → List Char → List String
  | [], acc => [String.mk acc.reverse]
  | c :: rest, acc =>
    if c = '|' then String.mk acc.reverse :: splitPipeAux rest []
    else splitPipeAux rest (c :: acc)

/-- `key.split("|")`. -/
def jsSplitPipe (s : String) : List String := splitPipeAux s.data []

/-- ASCII upper-casing of one character; the library only upper-cases hex
digests, for which JavaScript's `toUpperCase` is exactly this map. -/
def jsCharUpper (c : Char) : Char :=
  if 'a' ≤ c ∧ c ≤ 'z' then Char.ofNat (c.toNat - 32) else c

/-- `String.prototype.toUpperCase` on the digest strings this library feeds it. -/
def jsToUpperCase (s : String) : String := String.mk (s.data.map jsCharUpper)

/-- The external digest libraries and `encodeURIComponent`, opaque to this
repository. -/
structure ExternalFns where
  md5 : String → String
  sha1 : String → String
  encodeURIComponent : String → String

/-- The `SignType` enum of payment.ts. -/
inductive SignType where
  | md5
  | sha1
deriving DecidableEq

/-- `signByType` (payment.ts:144): SHA1 when asked for, MD5 otherwise. -/
def signByType (E : ExternalFns) (type : SignType) (text : String) : String :=
  match type with
  | SignType.sha1 => E.sha1 text
  | SignType.md5 => E.md5 text

/-- `toQueryString` (payment.ts:162): keys, filtered by value (dropping
`undefined` and the empty string), sorted, rendered `key=value`, joined by
`&`. -/
def toQueryString (object : FieldMap) : String :=
  joinAmp
    (((objKeys object).filter
        (fun key =>
          !(jsLookup object key == JsValue.undef) &&
          !(jsLookup object key == JsValue.str ""))).insertionSort strLeProp
      |>.map (fun key => key ++ "=" ++ jsValueToString (jsLookup object key)))

/-- `getSign` (payment.ts:150): clone, delete `sign`, canonicalize, append
`&key=<partnerKey>`, digest with the selected (default MD5) algorithm,
upper-case.  The clone makes the remainder a pure function of the argument;
`getSignOnHeap` below models the same source with the object store explicit. -/
def getSign (E : ExternalFns) (partnerKey : String) (pkg : FieldMap)
    (signType : Option SignType) : String :=
  let pkg2 := removeKey pkg "sign"
  let currentSignType := signType.getD SignType.md5
  let string1 := toQueryString pkg2
  let stringSignTemp := string1 ++ "&key=" ++ partnerKey
  jsToUpperCase (signByType E currentSignType stringSignTemp)

/-- `getSign` again, with the JavaScript object store explicit: object
references are indices into a list of field maps.  `pkg = _.clone(pkg)`
allocates a fresh object copying the argument, `delete pkg.sign` mutates that
fresh object, and the rest reads only the clone. -/
def getSignOnHeap (E : ExternalFns) (partnerKey : String) (objs : List FieldMap)
    (pkgRef : Nat) (signType : Option SignType) : List FieldMap × String :=
  let cloneRef := objs.length
  let objs1 := objs ++ [objs.getD pkgRef []]
  let objs2 := objs1.set cloneRef (removeKey (objs1.getD cloneRef []) "sign")
  (objs2,
    jsToUpperCase (signByType E (signType.getD SignType.md5)
      (toQueryString (objs2.getD cloneRef []) ++ "&key=" ++ partnerKey)))

/-- The client configuration (payment.ts `Config` / `initConfig`). -/
structure Config where
  appId : String
  partnerKey : String
  mchId : String
  subMchId : String
  notifyUrl : String
  passphrase : String
  pfx : String

/-- The `defaults` object built inside `extendWithDefault` (payment.ts:127);
the generated nonce is passed in explicitly. -/
def defaultsMap (cfg : Config) (nonce : String) : FieldMap :=
  [("appid", JsValue.str cfg.appId),
   ("mch_id", JsValue.str cfg.mchId),
   ("sub_mch_id", JsValue.str cfg.subMchId),
   ("nonce_str", JsValue.str nonce),
   ("notify_url", JsValue.str cfg.notifyUrl),
   ("op_user_id", JsValue.str cfg.mchId),
   ("pfx", JsValue.str cfg.pfx)]

/-- `extendWithDefault` (payment.ts:126): copy the truthy defaults named by
`keysNeedExtend` into a fresh object, then assign the caller's fields over
them. -/
def extendWithDefault (cfg : Config) (nonce : String) (obj : FieldMap)
    (keysNeedExtend : List String) : FieldMap :=
  let defaults := defaultsMap cfg nonce
  let extendObject := keysNeedExtend.foldl
    (fun acc k =>
      if jsTruthy (jsLookup defaults k) then setKey acc k (jsLookup defaults k)
      else acc) []
  jsExtend extendObject obj

/-- Which of the three default profiles `signedQuery` selects by comparing the
destination URL against `REDPACK_SEND` and `TRANSFERS`. -/
inductive UrlKind where
  | redpackSend
  | transfers
  | other
deriving DecidableEq

/-- The `keysNeedExtend` list for each branch of payment.ts:176-187. -/
def defaultKeysFor : UrlKind → List String
  | UrlKind.redpackSend => ["mch_id", "nonce_str"]
  | UrlKind.transfers => ["nonce_str"]
  | UrlKind.other => ["appid", "mch_id", "sub_mch_id", "nonce_str"]

/-- The string-coercion loop of payment.ts:199-203: every field that is
neither `undefined` nor `null` becomes its string representation. -/
def coerceStrings (object : FieldMap) : FieldMap :=
  object.map (fun kv =>
    match kv.2 with
    | JsValue.undef => kv
    | JsValue.null => kv
    | v => (kv.1, JsValue.str (jsValueToString v)))

/-- Whether a required-field entry (a `|`-separated alternative list) has no
truthy alternative in `params` (payment.ts:206-214). -/
def entryUnsatisfied (params : FieldMap) (key : String) : Bool :=
  (jsSplitPipe key).all (fun alt => !jsTruthy (jsLookup params alt))

/-- The `missing` list collected by payment.ts:205-214, in required order. -/
def missingParams (params : FieldMap) (required : List String) : List String :=
  required.filter (fun key => entryUnsatisfied params key)

/-- The request-construction prefix of `signedQuery` (payment.ts:173-203):
default merge per URL profile, signature insertion, `long_url` escaping,
string coercion. -/
def signedQueryParams (E : ExternalFns) (cfg : Config) (nonce : String)
    (urlKind : UrlKind) (params : FieldMap) : FieldMap :=
  let params1 := extendWithDefault cfg nonce params (defaultKeysFor urlKind)
  let params2 :=
    jsExtend [("sign", JsValue.str (getSign E cfg.partnerKey params1 none))] params1
  let params3 :=
    if jsTruthy (jsLookup params2 "long_url") then
      setKey params2 "long_url"
        (JsValue.str (E.encodeURIComponent (jsValueToString (jsLookup params2 "long_url"))))
    else params2
  coerceStrings params3

/-- The error kinds `validate` distinguishes (payment.ts:313-334), carrying
the same payloads (`return_msg`, `err_code`). -/
inductive WechatError where
  | protocolError (msg : JsValue)
  | businessError (code : JsValue)
  | invalidAppId
  | invalidMchId
  | invalidSubMchId
  | invalidSignature
deriving DecidableEq

/-- The post-parse body of `validate` (payment.ts:313-334) on the parsed
response field map; the XML adapter is the opaque external mapping of the
spec. -/
def validateFields (E : ExternalFns) (cfg : Config) (data : FieldMap) :
    Option WechatError :=
  if strictEqStr "FAIL" (jsLookup data "return_code") then
    some (WechatError.protocolError (jsLookup data "return_msg"))
  else if strictEqStr "FAIL" (jsLookup data "result_code") then
    some (WechatError.businessError (jsLookup data "err_code"))
  else if jsTruthy (jsLookup data "appid") &&
      !strictEqStr cfg.appId (jsLookup data "appid") then
    some WechatError.invalidAppId
  else if jsTruthy (jsLookup data "mch_id") &&
      !strictEqStr cfg.mchId (jsLookup data "mch_id") then
    some WechatError.invalidMchId
  else if jsTruthy (jsLookup data "mchid") &&
      !strictEqStr cfg.mchId (jsLookup data "mchid") then
    some WechatError.invalidMchId
  else if jsTruthy (JsValue.str cfg.subMchId) &&
      !strictEqStr cfg.subMchId (jsLookup data "sub_mch_id") then
    some WechatError.invalidSubMchId
  else if jsTruthy (jsLookup data "sign") &&
      !strictEqStr (getSign E cfg.partnerKey data none) (jsLookup data "sign") then
    some WechatError.invalidSignature
  else
    none

/-- Outcome of the opaque network exchange: a parsed response body, or a
transport failure (the rejected promise of `axios.get`). -/
inductive TransportResult where
  | ok (body : FieldMap)
  | failed

/-- One callback invocation as the operations deliver it: the bare
missing-params message (payment.ts:217), or `validate`'s `(error, data)`
pair. -/
inductive CallbackEvent where
  | failMsg (msg : String)
  | result (err : Option WechatError) (data : FieldMap)
deriving DecidableEq

/-- The whole of `signedQuery` (payment.ts:173-228).  `none` means the
callback was never invoked: the `catch` block around the network exchange
swallows the exception (payment.ts:223-227). -/
def signedQuery (E : ExternalFns) (cfg : Config) (nonce : String)
    (urlKind : UrlKind) (params : FieldMap) (required : List String)
    (transport : TransportResult) : Option CallbackEvent :=
  let p := signedQueryParams E cfg nonce urlKind params
  let missing := missingParams p required
  if missing.isEmpty then
    match transport with
    | TransportResult.ok body =>
        some (CallbackEvent.result (validateFields E cfg body) body)
    | TransportResult.failed => none
  else
    some (CallbackEvent.failMsg ("missing params " ++ joinComma missing))

/-- Step 2 of `getBrandWCPayRequestParams` (payment.ts:276-290) as written:
embed the prepay token, sign the client-side payload with `this.getSign`,
copy the trade-type specific URLs, duplicate the timestamp.  Caveat: the
enclosing callback is a plain `function(err, data)`, so at runtime `this` is
undefined inside it and the real success path throws a TypeError (which
`signedQuery`'s catch swallows) instead of producing this payload; the
commented original used `self._getSign`, which this definition matches.
`getBrandWCPayRequestParams` below only uses this definition to mark that
the success branch enters Step 2; no theorem depends on its output. -/
def brandStep2 (E : ExternalFns) (cfg : Config) (defaultParams : FieldMap)
    (order : FieldMap) (data : FieldMap) : FieldMap :=
  let params := jsExtend defaultParams
    [("package", JsValue.str ("prepay_id=" ++ jsValueToString (jsLookup data "prepay_id")))]
  let params := setKey params "paySign"
    (JsValue.str (getSign E cfg.partnerKey params none))
  let params :=
    if strictEqStr "NATIVE" (jsLookup order "trade_type") then
      setKey params "code_url" (jsLookup data "code_url")
    else if strictEqStr "MWEB" (jsLookup order "trade_type") then
      setKey params "mweb_url" (jsLookup data "mweb_url")
    else params
  setKey params "timestamp" (jsLookup params "timeStamp")

/-- `getBrandWCPayRequestParams` (payment.ts:261-292) with the Step 1
(`unifiedOrder`) outcome abstracted into an argument of any error type `ε`.
The boolean records whether Step 2 was performed. -/
def getBrandWCPayRequestParams {ε : Type} (E : ExternalFns) (cfg : Config)
    (timeStamp nonceStr : String) (order : FieldMap)
    (step1 : Except ε FieldMap) : Except ε FieldMap × Bool :=
  let defaultParams : FieldMap :=
    [("appId", JsValue.str cfg.appId),
     ("timeStamp", JsValue.str timeStamp),
     ("nonceStr", JsValue.str nonceStr),
     ("signType", JsValue.str "MD5")]
  let order2 := extendWithDefault cfg nonceStr order ["notify_url"]
  match step1 with
  | Except.error e => (Except.error e, false)
  | Except.ok data => (Except.ok (brandStep2 E cfg defaultParams order2 data), true)

/-- Modelled from the spec: the canonical string exactly as claim C1 words it,
including the discarding of null-valued fields. -/
def claimCanonicalC1 (pkg : FieldMap) : String :=
  joinAmp
    ((((removeKey pkg "sign").filter
        (fun kv =>
          !(kv.2 == JsValue.undef) && !(kv.2 == JsValue.null) &&
          !(kv.2 == JsValue.str ""))).insertionSort pairLe).map
      (fun kv => kv.1 ++ "=" ++ jsValueToString kv.2))

/-- The canonical string as the code actually computes it, restated at the
pair level: remove `sign`, discard only undefined and empty-string values,
sort by field name, render, join. -/
def specCanonicalAmended (pkg : FieldMap) : String :=
  joinAmp
    ((((removeKey pkg "sign").filter
        (fun kv =>
          !(kv.2 == JsValue.undef) && !(kv.2 == JsValue.str ""))).insertionSort pairLe).map
      (fun kv => kv.1 ++ "=" ++ jsValueToString kv.2))

/-- The synthetic success response of the round-trip property: the request's
fields under success status codes, re-signed with the same shared secret. -/
def syntheticResponse (E : ExternalFns) (cfg : Config) (req : FieldMap) : FieldMap :=
  let base :=
    [("return_code", JsValue.str "SUCCESS"), ("result_code", JsValue.str "SUCCESS")] ++
      removeKey req "sign"
  base ++ [("sign", JsValue.str (getSign E cfg.partnerKey base none))]

/-- Response keys with a dedicated meaning to the builder or the validator;
round-trip business fields must avoid them. -/
def reservedRespKeys : List String :=
  ["return_code", "result_code", "appid", "mch_id", "mchid", "sub_mch_id",
   "nonce_str", "sign", "long_url"]

/-- The default fields that the standard profile of `signedQuery` actually
injects: the truthy entries of the defaults object restricted to the standard
key list. -/
def defaultsProfile (cfg : Config) (nonce : String) : FieldMap :=
  ((defaultKeysFor UrlKind.other).filter
    (fun k => jsTruthy (jsLookup (defaultsMap cfg nonce) k))).map
    (fun k => (k, jsLookup (defaultsMap cfg nonce) k))

/-- Whether a scalar is a string value (the shape of every parsed response
field and of every caller-supplied field in the round-trip property). -/
def isStrVal : JsValue → Bool
  | JsValue.str _ => true
  | _ => false

/-- Sample externals for concrete witnesses: digests are constants. -/
def extSample : ExternalFns :=
  ⟨fun _ => "AB12", fun _ => "CD34", fun s => s⟩

/-- Sample configuration for concrete witnesses. -/
def cfgSample : Config :=
  ⟨"wx1", "key1", "mch1", "", "http://n", "", ""⟩

/-- Sample configuration with a sub-merchant id configured. -/
def cfgSubSample : Config :=
  ⟨"wx1", "key1", "mch1", "sub1", "http://n", "", ""⟩

theorem charListLe_total : ∀ a b : List Char, charListLe a b = true ∨ charListLe b a = true
  | [], _ => Or.inl rfl
  | _ :: _, [] => Or.inr rfl
  | a :: as, b :: bs => by
    by_cases hab : a = b
    · subst hab
      simpa [charListLe] using charListLe_total as bs
    · rcases lt_trichotomy a b with h | h | h
      · left
        simp [charListLe, hab, h]
      · exact absurd h hab
      · right
        have hba : b ≠ a := fun hh => hab hh.symm
        simp [charListLe, hba, h]

theorem charListLe_trans :
    ∀ {a b c : List Char}, charListLe a b = true → charListLe b c = true →
      charListLe a c = true
  | [], _, _, _, _ => rfl
  | _ :: _, [], _, h1, _ => by simp [charListLe] at h1
  | _ :: _, _ :: _, [], _, h2 => by simp [charListLe] at h2
  | x :: as, y :: bs, z :: cs, h1, h2 => by
    by_cases hxy : x = y <;> by_cases hyz : y = z
    · subst hxy; subst hyz
      simp only [charListLe, if_pos rfl] at h1 h2 ⊢
      exact charListLe_trans h1 h2
    · subst hxy
      simp only [charListLe, if_neg hyz] at h2 ⊢
      exact h2
    · subst hyz
      simp only [charListLe, if_neg hxy] at h1 ⊢
      exact h1
    · simp only [charListLe, if_neg hxy, decide_eq_true_eq] at h1
      simp only [charListLe, if_neg hyz, decide_eq_true_eq] at h2
      have hxz : x < z := lt_trans h1 h2
      simp [charListLe, ne_of_lt hxz, hxz]

theorem charListLe_antisymm :
    ∀ {a b : List Char}, charListLe a b = true → charListLe b a = true → a = b
  | [], [], _, _ => rfl
  | [], _ :: _, _, h2 => by simp [charListLe] at h2
  | _ :: _, [], h1, _ => by simp [charListLe] at h1
  | x :: as, y :: bs, h1, h2 => by
    by_cases hxy : x = y
    · subst hxy
      simp only [charListLe, if_pos rfl] at h1 h2
      rw [charListLe_antisymm h1 h2]
    · have hyx : y ≠ x := fun hh => hxy hh.symm
      simp only [charListLe, if_neg hxy, decide_eq_true_eq] at h1
      simp only [charListLe, if_neg hyx, decide_eq_true_eq] at h2
      exact absurd h2 (lt_asymm h1)

theorem jsLe_antisymm {a b : String} (h1 : jsLe a b = true) (h2 : jsLe b a = true) :
    a = b := by
  cases a with
  | mk da =>
    cases b with
    | mk db =>
      have : da = db := charListLe_antisymm h1 h2
      rw [this]

theorem jsLookup_nil (k : String) : jsLookup [] k = JsValue.undef := rfl

theorem jsLookup_cons (k0 : String) (v : JsValue) (t : FieldMap) (k : String) :
    jsLookup ((k0, v) :: t) k = if k0 = k then v else jsLookup t k := by
  by_cases h : k0 = k
  · subst h
    simp [jsLookup]
  · simp [jsLookup, List.find?_cons, h]

theorem hasKey_iff_mem {l : FieldMap} {k : String} :
    hasKey l k = true ↔ k ∈ objKeys l := by
  simp [hasKey]

theorem hasKey_cons (k0 : String) (v : JsValue) (t : FieldMap) (k : String) :
    hasKey ((k0, v) :: t) k = (k0 == k || hasKey t k) := by
  by_cases h : k0 = k
  · subst h
    simp [hasKey, objKeys]
  · have h1 : (k0 == k) = false := by simpa using h
    have h2 : (k == k0) = false := by simpa using Ne.symm h
    simp [hasKey, objKeys, List.contains_cons, h1, h2]

theorem hasKey_append (l1 l2 : FieldMap) (k : String) :
    hasKey (l1 ++ l2) k = (hasKey l1 k || hasKey l2 k) := by
  by_cases h1 : k ∈ List.map Prod.fst l1 <;> by_cases h2 : k ∈ List.map Prod.fst l2 <;>
    simp [hasKey, objKeys, List.mem_append, h1, h2]

theorem jsLookup_eq_undef_of_hasKey_eq_false {l : FieldMap} {k : String}
    (h : hasKey l k = false) : jsLookup l k = JsValue.undef := by
  induction l with
  | nil => rfl
  | cons kv t ih =>
    rw [hasKey_cons] at h
    rcases Bool.or_eq_false_iff.mp h with ⟨h1, h2⟩
    rw [show kv = (kv.1, kv.2) from rfl, jsLookup_cons,
      if_neg (by simpa using h1), ih h2]

theorem mem_of_hasKey {l : FieldMap} {k : String} (h : hasKey l k = true) :
    (k, jsLookup l k) ∈ l := by
  induction l with
  | nil => simp [hasKey, objKeys] at h
  | cons kv t ih =>
    rw [hasKey_cons] at h
    rw [List.mem_cons]
    by_cases hk : kv.1 = k
    · left
      have hl : jsLookup (kv :: t) k = kv.2 := by
        rw [show kv = (kv.1, kv.2) from rfl, jsLookup_cons, if_pos hk]
      rw [hl, ← hk]
    · right
      have h2 : hasKey t k = true := by
        rcases Bool.or_eq_true_iff.mp h with h1 | h1
        · exact absurd (by simpa using h1) hk
        · exact h1
      have hl : jsLookup (kv :: t) k = jsLookup t k := by
        rw [show kv = (kv.1, kv.2) from rfl, jsLookup_cons, if_neg hk]
      rw [hl]
      exact ih h2

theorem jsLookup_of_mem {l : FieldMap} {k : String} {v : JsValue}
    (hnd : (objKeys l).Nodup) (hm : (k, v) ∈ l) : jsLookup l k = v := by
  induction l with
  | nil => simp at hm
  | cons kv t ih =>
    rw [objKeys, List.map_cons, List.nodup_cons] at hnd
    cases hm with
    | head =>
      rw [jsLookup_cons, if_pos rfl]
    | tail _ hm =>
      have hk : kv.1 ≠ k := by
        intro hh
        refine hnd.1 ?_
        rw [hh]
        exact List.mem_map_of_mem Prod.fst hm
      rw [show kv = (kv.1, kv.2) from rfl, jsLookup_cons, if_neg hk]
      exact ih hnd.2 hm

theorem jsLookup_append (l1 l2 : FieldMap) (k : String) :
    jsLookup (l1 ++ l2) k =
      if hasKey l1 k then jsLookup l1 k else jsLookup l2 k := by
  induction l1 with
  | nil => simp [hasKey, objKeys]
  | cons kv t ih =>
    rw [show kv = (kv.1, kv.2) from rfl, List.cons_append, jsLookup_cons,
      jsLookup_cons, hasKey_cons]
    by_cases hk : kv.1 = k
    · simp [hk]
    · simp only [if_neg hk, ih]
      have : (kv.1 == k) = false := by simpa using hk
      rw [this, Bool.false_or]

theorem jsLookup_perm {l1 l2 : FieldMap} (hnd : (objKeys l1).Nodup)
    (hp : l1.Perm l2) (k : String) : jsLookup l1 k = jsLookup l2 k := by
  have hnd2 : (objKeys l2).Nodup := ((hp.map Prod.fst).nodup_iff).mp hnd
  by_cases h : hasKey l1 k = true
  · have hm : (k, jsLookup l1 k) ∈ l2 := hp.mem_iff.mp (mem_of_hasKey h)
    exact (jsLookup_of_mem hnd2 hm).symm
  · have h1 : hasKey l1 k = false := by simpa using h
    have h2 : hasKey l2 k = false := by
      by_contra hcon
      have hh : hasKey l2 k = true := by
        cases hq : hasKey l2 k
        · exact absurd hq hcon
        · rfl
      have hmem : k ∈ objKeys l1 :=
        ((hp.map Prod.fst).mem_iff).mpr (hasKey_iff_mem.mp hh)
      have hcon2 : hasKey l1 k = true := hasKey_iff_mem.mpr hmem
      rw [h1] at hcon2
      exact absurd hcon2 (by simp)
    rw [jsLookup_eq_undef_of_hasKey_eq_false h1,
      jsLookup_eq_undef_of_hasKey_eq_false h2]

theorem removeKey_cons (k0 : String) (v : JsValue) (t : FieldMap) (key : String) :
    removeKey ((k0, v) :: t) key =
      if k0 = key then removeKey t key else (k0, v) :: removeKey t key := by
  by_cases h : k0 = key
  · simp [removeKey, List.filter_cons, h]
  · simp [removeKey, List.filter_cons, h]

theorem jsLookup_removeKey {k key : String} (hne : k ≠ key) (l : FieldMap) :
    jsLookup (removeKey l key) k = jsLookup l k := by
  induction l with
  | nil => rfl
  | cons kv t ih =>
    rw [show kv = (kv.1, kv.2) from rfl, removeKey_cons]
    by_cases hk : kv.1 = key
    · rw [if_pos hk, ih, jsLookup_cons,
        if_neg (by rw [hk]; exact Ne.symm hne)]
    · rw [if_neg hk, jsLookup_cons, jsLookup_cons]
      by_cases hk2 : kv.1 = k
      · rw [if_pos hk2, if_pos hk2]
      · rw [if_neg hk2, if_neg hk2, ih]

theorem removeKey_eq_self {l : FieldMap} {key : String}
    (h : hasKey l key = false) : removeKey l key = l := by
  induction l with
  | nil => rfl
  | cons kv t ih =>
    rw [show kv = (kv.1, kv.2) from rfl] at h ⊢
    rw [hasKey_cons, Bool.or_eq_false_iff] at h
    rw [removeKey_cons, if_neg (by simpa using h.1), ih h.2]

theorem hasKey_removeKey_self (l : FieldMap) (key : String) :
    hasKey (removeKey l key) key = false := by
  induction l with
  | nil => rfl
  | cons kv t ih =>
    rw [show kv = (kv.1, kv.2) from rfl, removeKey_cons]
    by_cases h : kv.1 = key
    · rw [if_pos h]
      exact ih
    · rw [if_neg h, hasKey_cons, ih, Bool.or_false]
      simpa using h

theorem removeKey_append (l1 l2 : FieldMap) (key : String) :
    removeKey (l1 ++ l2) key = removeKey l1 key ++ removeKey l2 key := by
  simp [removeKey]

theorem objKeys_map_pair (g : String → JsValue) (xs : List String) :
    objKeys (xs.map fun k => (k, g k)) = xs := by
  induction xs with
  | nil => rfl
  | cons x t ih =>
    rw [List.map_cons, objKeys, List.map_cons]
    rw [objKeys] at ih
    rw [ih]

theorem nodup_objKeys_filter {l : FieldMap} (p : String × JsValue → Bool)
    (h : (objKeys l).Nodup) : (objKeys (l.filter p)).Nodup := by
  have hs : (l.filter p).Sublist l := List.filter_sublist l
  exact List.Nodup.sublist (hs.map Prod.fst) h

theorem nodup_objKeys_removeKey {l : FieldMap} (key : String)
    (h : (objKeys l).Nodup) : (objKeys (removeKey l key)).Nodup :=
  nodup_objKeys_filter _ h

theorem setKey_fresh {l : FieldMap} {k : String} (h : hasKey l k = false)
    (v : JsValue) : setKey l k v = l ++ [(k, v)] := by
  rw [setKey, if_neg (by simp [h])]

theorem jsExtend_cons (base : FieldMap) (kv : String × JsValue) (t : FieldMap) :
    jsExtend base (kv :: t) = jsExtend (setKey base kv.1 kv.2) t := rfl

theorem jsExtend_eq_append {obj base : FieldMap} (hnd : (objKeys obj).Nodup)
    (hfresh : ∀ k ∈ objKeys obj, hasKey base k = false) :
    jsExtend base obj = base ++ obj := by
  induction obj generalizing base with
  | nil => simp [jsExtend]
  | cons kv t ih =>
    rw [objKeys, List.map_cons, List.nodup_cons] at hnd
    have hf : hasKey base kv.1 = false := hfresh kv.1 (by simp [objKeys])
    have hfresh2 : ∀ k ∈ objKeys t, hasKey (base ++ [(kv.1, kv.2)]) k = false := by
      intro k hk
      rw [hasKey_append]
      have h1 : hasKey base k = false := by
        refine hfresh k ?_
        rw [objKeys, List.map_cons]
        exact List.mem_cons_of_mem _ hk
      have hne : kv.1 ≠ k := fun hh => hnd.1 (by rw [hh]; exact hk)
      have h2 : hasKey [(kv.1, kv.2)] k = false := by
        rw [hasKey_cons]
        simp [hasKey, objKeys, hne]
      rw [h1, h2]
      rfl
    rw [jsExtend_cons, setKey_fresh hf kv.2, ih hnd.2 hfresh2]
    simp

theorem extendObject_eq (cfg : Config) (nonce : String) :
    ∀ (ks : List String) (acc : FieldMap), ks.Nodup →
      (∀ k ∈ ks, hasKey acc k = false) →
      ks.foldl (fun acc2 k =>
          if jsTruthy (jsLookup (defaultsMap cfg nonce) k) then
            setKey acc2 k (jsLookup (defaultsMap cfg nonce) k)
          else acc2) acc
        = acc ++
          (ks.filter fun k => jsTruthy (jsLookup (defaultsMap cfg nonce) k)).map
            (fun k => (k, jsLookup (defaultsMap cfg nonce) k))
  | [], acc, _, _ => by simp
  | k0 :: ks, acc, hnd, hfresh => by
    rw [List.nodup_cons] at hnd
    rw [List.foldl_cons, List.filter_cons]
    by_cases hc : jsTruthy (jsLookup (defaultsMap cfg nonce) k0)
    · rw [if_pos hc, setKey_fresh (hfresh k0 (List.mem_cons_self _ _))]
      have hfresh2 : ∀ k ∈ ks,
          hasKey (acc ++ [(k0, jsLookup (defaultsMap cfg nonce) k0)]) k = false := by
        intro k hk
        rw [hasKey_append, hfresh k (List.mem_cons_of_mem _ hk)]
        have hne : k0 ≠ k := fun hh => hnd.1 (by rw [hh]; exact hk)
        rw [hasKey_cons]
        simp [hasKey, objKeys, hne]
      rw [extendObject_eq cfg nonce ks _ hnd.2 hfresh2]
      simp [hc]
    · rw [if_neg hc,
        extendObject_eq cfg nonce ks acc hnd.2
          (fun k hk => hfresh k (List.mem_cons_of_mem _ hk))]
      simp [hc]

theorem extendWithDefault_eq (cfg : Config) (nonce : String) (obj : FieldMap)
    (ks : List String) (hks : ks.Nodup) (hobj : (objKeys obj).Nodup)
    (hdisj : ∀ k ∈ objKeys obj, k ∉ ks) :
    extendWithDefault cfg nonce obj ks
      = (ks.filter fun k => jsTruthy (jsLookup (defaultsMap cfg nonce) k)).map
          (fun k => (k, jsLookup (defaultsMap cfg nonce) k)) ++ obj := by
  simp only [extendWithDefault]
  rw [extendObject_eq cfg nonce ks [] hks (by intro k _; rfl)]
  rw [List.nil_append]
  refine jsExtend_eq_append hobj ?_
  intro k hk
  cases hh : hasKey
      ((ks.filter fun k2 => jsTruthy (jsLookup (defaultsMap cfg nonce) k2)).map
        (fun k2 => (k2, jsLookup (defaultsMap cfg nonce) k2))) k with
  | false => rfl
  | true =>
    exfalso
    have hm := hasKey_iff_mem.mp hh
    rw [objKeys_map_pair] at hm
    exact hdisj k hk (List.mem_of_mem_filter hm)

theorem objKeys_orderedInsert (x : String × JsValue) (m : List (String × JsValue)) :
    objKeys (List.orderedInsert pairLe x m)
      = List.orderedInsert strLeProp x.1 (objKeys m) := by
  induction m with
  | nil => rfl
  | cons y t ih =>
    rw [show objKeys (y :: t) = y.1 :: objKeys t from rfl]
    simp only [List.orderedInsert]
    by_cases h : pairLe x y
    · rw [if_pos h, if_pos (show strLeProp x.1 y.1 from h)]
      rfl
    · rw [if_neg h, if_neg (show ¬ strLeProp x.1 y.1 from h)]
      rw [show objKeys (y :: List.orderedInsert pairLe x t)
        = y.1 :: objKeys (List.orderedInsert pairLe x t) from rfl]
      rw [ih]

theorem objKeys_insertionSort (m : List (String × JsValue)) :
    objKeys (List.insertionSort pairLe m)
      = List.insertionSort strLeProp (objKeys m) := by
  induction m with
  | nil => rfl
  | cons y t ih =>
    rw [show objKeys (y :: t) = y.1 :: objKeys t from rfl]
    simp only [List.insertionSort]
    rw [objKeys_orderedInsert, ih]

theorem keysFilter_eq (l : FieldMap) (hnd : (objKeys l).Nodup) :
    (objKeys l).filter
        (fun k =>
          !(jsLookup l k == JsValue.undef) && !(jsLookup l k == JsValue.str ""))
      = objKeys (l.filter
          (fun kv => !(kv.2 == JsValue.undef) && !(kv.2 == JsValue.str ""))) := by
  induction l with
  | nil => rfl
  | cons kv t ih =>
    rw [objKeys, List.map_cons, List.nodup_cons] at hnd
    have hhead : jsLookup (kv :: t) kv.1 = kv.2 := by
      rw [show kv = (kv.1, kv.2) from rfl, jsLookup_cons, if_pos rfl]
    have htail : ∀ k ∈ objKeys t, jsLookup (kv :: t) k = jsLookup t k := by
      intro k hk
      have hne : kv.1 ≠ k := fun hh => hnd.1 (by rw [hh]; exact hk)
      rw [show kv = (kv.1, kv.2) from rfl, jsLookup_cons, if_neg hne]
    rw [show objKeys (kv :: t) = kv.1 :: objKeys t from rfl]
    rw [List.filter_cons, List.filter_cons, hhead]
    have hcongr : List.filter
        (fun k => !(jsLookup (kv :: t) k == JsValue.undef) &&
          !(jsLookup (kv :: t) k == JsValue.str "")) (objKeys t)
      = List.filter
        (fun k => !(jsLookup t k == JsValue.undef) &&
          !(jsLookup t k == JsValue.str "")) (objKeys t) :=
      List.filter_congr (fun k hk => by rw [htail k hk])
    rw [hcongr, ih hnd.2]
    by_cases hkeep : (!(kv.2 == JsValue.undef) && !(kv.2 == JsValue.str "")) = true
    · rw [if_pos hkeep, if_pos hkeep]
      rfl
    · rw [if_neg hkeep, if_neg hkeep]

theorem toQueryString_eq_pairs (l : FieldMap) (hnd : (objKeys l).Nodup) :
    toQueryString l =
      joinAmp
        (((l.filter (fun kv =>
            !(kv.2 == JsValue.undef) && !(kv.2 == JsValue.str ""))).insertionSort
              pairLe).map
          (fun kv => kv.1 ++ "=" ++ jsValueToString kv.2)) := by
  rw [toQueryString, keysFilter_eq l hnd, ← objKeys_insertionSort]
  congr 1
  rw [objKeys, List.map_map]
  refine List.map_congr_left ?_
  intro kv hm
  have hm2 : kv ∈ l := by
    have hp := List.perm_insertionSort pairLe
      (l.filter (fun kv =>
        !(kv.2 == JsValue.undef) && !(kv.2 == JsValue.str "")))
    exact List.mem_of_mem_filter (hp.mem_iff.mp hm)
  have : jsLookup l kv.1 = kv.2 := jsLookup_of_mem hnd (by
    rw [show (kv.1, kv.2) = kv from rfl]
    exact hm2)
  simp only [Function.comp]
  rw [this]

theorem coerceStrings_eq_self {l : FieldMap}
    (h : ∀ kv ∈ l, isStrVal kv.2 = true) : coerceStrings l = l := by
  induction l with
  | nil => rfl
  | cons kv t ih =>
    rw [coerceStrings, List.map_cons]
    have hh := h kv (List.mem_cons_self _ _)
    have ht : coerceStrings t = t := ih (fun kv2 hm => h kv2 (List.mem_cons_of_mem _ hm))
    rw [coerceStrings] at ht
    rw [ht]
    cases hv : kv.2 with
    | str s =>
      show (kv.1, JsValue.str s) :: t = kv :: t
      rw [← hv]
    | undef => simp [hv, isStrVal] at hh
    | null => simp [hv, isStrVal] at hh
    | num n => simp [hv, isStrVal] at hh

theorem getSign_congr (E : ExternalFns) (partnerKey : String)
    {p1 p2 : FieldMap} (h : removeKey p1 "sign" = removeKey p2 "sign")
    (ty : Option SignType) :
    getSign E partnerKey p1 ty = getSign E partnerKey p2 ty := by
  rw [getSign, getSign, h]

/-- Claim C1, counterexample: on a field map holding one null-valued field the
code's canonical string keeps the field and renders it as `a=null`, while the
claim's canonicalization (discarding undefined, null and empty values) yields
the empty string. -/
theorem claim_c1_counterexample :
    toQueryString (removeKey [("a", JsValue.null)] "sign") = "a=null" ∧
    claimCanonicalC1 [("a", JsValue.null)] = "" ∧
    toQueryString (removeKey [("a", JsValue.null)] "sign")
      ≠ claimCanonicalC1 [("a", JsValue.null)] :=
  ⟨by decide, by decide, by decide⟩

/-- Claim C1 (amended): for every field map with unique keys the canonical
string signed by getSign removes the `sign` field, discards only fields whose
value is undefined or the empty string (null values are kept, rendered as the
text null), sorts the remaining names, renders each as name=value and joins
with ampersands; the empty field map yields the empty string. -/
theorem claim_c1_amended (pkg : FieldMap) (h : (objKeys pkg).Nodup) :
    toQueryString (removeKey pkg "sign") = specCanonicalAmended pkg ∧
    toQueryString ([] : FieldMap) = "" := by
  constructor
  · exact toQueryString_eq_pairs (removeKey pkg "sign") (nodup_objKeys_removeKey "sign" h)
  · rfl

theorem claim_c1_witness :
    toQueryString (removeKey [("b", JsValue.str "2"), ("sign", JsValue.str "S"),
        ("a", JsValue.null), ("c", JsValue.str ""), ("d", JsValue.undef)] "sign")
      = specCanonicalAmended [("b", JsValue.str "2"), ("sign", JsValue.str "S"),
        ("a", JsValue.null), ("c", JsValue.str ""), ("d", JsValue.undef)] ∧
    toQueryString ([] : FieldMap) = "" :=
  claim_c1_amended _ (by decide)

/-- Claim C2: getSign is the upper-cased digest (MD5 by default, SHA1 when
selected) of the canonical string with the key suffix appended, and is a pure
function of canonical string, secret and algorithm: any two field maps with
the same canonical string receive the same signature. -/
theorem claim_c2 (E : ExternalFns) (partnerKey : String) (ty : Option SignType)
    (p1 p2 : FieldMap)
    (h : toQueryString (removeKey p1 "sign") = toQueryString (removeKey p2 "sign")) :
    getSign E partnerKey p1 ty
      = jsToUpperCase (signByType E (ty.getD SignType.md5)
          (toQueryString (removeKey p1 "sign") ++ "&key=" ++ partnerKey)) ∧
    getSign E partnerKey p1 ty = getSign E partnerKey p2 ty ∧
    getSign E partnerKey p1 none = getSign E partnerKey p1 (some SignType.md5) := by
  refine ⟨rfl, ?_, rfl⟩
  rw [getSign, getSign, h]

theorem claim_c2_witness :
    getSign extSample "key1" [("a", JsValue.str "1")] none
      = jsToUpperCase (signByType extSample (Option.getD none SignType.md5)
          (toQueryString (removeKey [("a", JsValue.str "1")] "sign")
            ++ "&key=" ++ "key1")) ∧
    getSign extSample "key1" [("a", JsValue.str "1")] none
      = getSign extSample "key1" [("b", JsValue.undef), ("a", JsValue.str "1")] none ∧
    getSign extSample "key1" [("a", JsValue.str "1")] none
      = getSign extSample "key1" [("a", JsValue.str "1")] (some SignType.md5) :=
  claim_c2 extSample "key1" none _ _ (by decide)

/-- Claim C8: canonicalization is insertion-order independent for maps with
the same name/value pairs, and empty or absent values do not affect it. -/
theorem claim_c8 (l1 l2 : FieldMap) (hnd : (objKeys l1).Nodup) (hp : l1.Perm l2) :
    toQueryString l1 = toQueryString l2 ∧
    toQueryString [("a", JsValue.str "1"), ("b", JsValue.str ""), ("c", JsValue.undef)]
      = toQueryString [("a", JsValue.str "1")] := by
  constructor
  · have hkf : jsLookup l1 = jsLookup l2 := funext (jsLookup_perm hnd hp)
    rw [toQueryString, toQueryString, hkf]
    have hperm : ((objKeys l1).filter
          (fun key => !(jsLookup l2 key == JsValue.undef) &&
            !(jsLookup l2 key == JsValue.str ""))).Perm
        ((objKeys l2).filter
          (fun key => !(jsLookup l2 key == JsValue.undef) &&
            !(jsLookup l2 key == JsValue.str ""))) :=
      (hp.map Prod.fst).filter _
    haveI ht1 : IsTotal String strLeProp := ⟨fun a b => charListLe_total a.data b.data⟩
    haveI ht2 : IsTrans String strLeProp :=
      ⟨fun _ _ _ hab hbc => charListLe_trans hab hbc⟩
    haveI ht3 : IsAntisymm String strLeProp :=
      ⟨fun _ _ hab hba => jsLe_antisymm hab hba⟩
    rw [List.eq_of_perm_of_sorted
      (((List.perm_insertionSort strLeProp _).trans hperm).trans
        (List.perm_insertionSort strLeProp _).symm)
      (List.sorted_insertionSort strLeProp _)
      (List.sorted_insertionSort strLeProp _)]
  · decide

theorem claim_c8_witness :
    toQueryString [("b", JsValue.str "2"), ("a", JsValue.str "1")]
      = toQueryString [("a", JsValue.str "1"), ("b", JsValue.str "2")] ∧
    toQueryString [("a", JsValue.str "1"), ("b", JsValue.str ""), ("c", JsValue.undef)]
      = toQueryString [("a", JsValue.str "1")] :=
  claim_c8 _ _ (by decide) (by decide)

/-- Claim C9: when Step 1 (the order-creation operation) fails with any error,
Step 2 (the client-side payment payload) is never attempted and the Step 1
error is passed unchanged to the caller; Step 2 runs exactly on success. -/
theorem claim_c9 {ε : Type} (E : ExternalFns) (cfg : Config)
    (timeStamp nonceStr : String) (order : FieldMap) (e : ε) :
    getBrandWCPayRequestParams E cfg timeStamp nonceStr order (Except.error e)
      = (Except.error e, false) ∧
    ∀ data : FieldMap,
      (getBrandWCPayRequestParams E cfg timeStamp nonceStr order
        (Except.ok data : Except ε FieldMap)).2 = true :=
  ⟨rfl, fun _ => rfl⟩

/-- Claim C10: getSign never mutates its argument: with the object store made
explicit, the caller's field map (including one that already carries a sign
field) is unchanged after the call, and the returned signature equals the
pure getSign of the argument. -/
theorem claim_c10 (E : ExternalFns) (partnerKey : String) (objs : List FieldMap)
    (r : Nat) (ty : Option SignType) (h : r < objs.length) :
    (getSignOnHeap E partnerKey objs r ty).1.getD r [] = objs.getD r [] ∧
    (getSignOnHeap E partnerKey objs r ty).2
      = getSign E partnerKey (objs.getD r []) ty := by
  have h1 : (objs ++ [objs.getD r []]).getD objs.length [] = objs.getD r [] := by
    rw [List.getD_eq_getElem?_getD, List.getElem?_append, if_neg (by omega)]
    simp
  constructor
  · simp only [getSignOnHeap]
    rw [List.getD_eq_getElem?_getD, List.getD_eq_getElem?_getD, List.getElem?_set]
    rw [if_neg (by omega)]
    rw [List.getElem?_append, if_pos h]
  · simp only [getSignOnHeap, getSign]
    have h2 : ((objs ++ [objs.getD r []]).set objs.length
        (removeKey ((objs ++ [objs.getD r []]).getD objs.length []) "sign")).getD
          objs.length []
        = removeKey (objs.getD r []) "sign" := by
      rw [List.getD_eq_getElem?_getD, List.getElem?_set, if_pos rfl,
        if_pos (by simp), h1]
      rfl
    rw [h2]

theorem claim_c10_witness :
    (getSignOnHeap extSample "key1"
        [[("sign", JsValue.str "S"), ("a", JsValue.str "1")]] 0 none).1.getD 0 []
      = [[("sign", JsValue.str "S"), ("a", JsValue.str "1")]].getD 0 [] ∧
    (getSignOnHeap extSample "key1"
        [[("sign", JsValue.str "S"), ("a", JsValue.str "1")]] 0 none).2
      = getSign extSample "key1"
          ([[("sign", JsValue.str "S"), ("a", JsValue.str "1")]].getD 0 []) none :=
  claim_c10 extSample "key1" _ 0 none (by decide)

/-- Claim C5 (the code bug of payment.ts:223-227): on a transport failure the
catch block swallows the error, so the callback is never invoked and the
caller receives no outcome at all; the same call with a successful exchange
does deliver an outcome. -/
theorem claim_c5_bug :
    signedQuery extSample cfgSample "n1" UrlKind.other [] [] TransportResult.failed
      = none ∧
    signedQuery extSample cfgSample "n1" UrlKind.other [] [] (TransportResult.ok [])
      ≠ none :=
  ⟨by decide, by decide⟩

/-- Claim C4: validate applies its checks in the fixed order ProtocolError,
BusinessError, InvalidAppId, InvalidMchId (under either field spelling),
InvalidSubMchId, InvalidSignature, short-circuiting at the first failing
check; in particular return_code=SUCCESS with result_code=FAIL yields
BusinessError and never success, and an appid mismatch yields InvalidAppId
whatever the signature; when every check passes the result is success. -/
theorem claim_c4 (E : ExternalFns) (cfg : Config) (data : FieldMap) :
    (strictEqStr "FAIL" (jsLookup data "return_code") = true →
      validateFields E cfg data
        = some (WechatError.protocolError (jsLookup data "return_msg"))) ∧
    (strictEqStr "FAIL" (jsLookup data "return_code") = false →
      strictEqStr "FAIL" (jsLookup data "result_code") = true →
      validateFields E cfg data
        = some (WechatError.businessError (jsLookup data "err_code"))) ∧
    (strictEqStr "FAIL" (jsLookup data "return_code") = false →
      strictEqStr "FAIL" (jsLookup data "result_code") = false →
      (jsTruthy (jsLookup data "appid") &&
        !strictEqStr cfg.appId (jsLookup data "appid")) = true →
      validateFields E cfg data = some WechatError.invalidAppId) ∧
    (strictEqStr "FAIL" (jsLookup data "return_code") = false →
      strictEqStr "FAIL" (jsLookup data "result_code") = false →
      (jsTruthy (jsLookup data "appid") &&
        !strictEqStr cfg.appId (jsLookup data "appid")) = false →
      (jsTruthy (jsLookup data "mch_id") &&
        !strictEqStr cfg.mchId (jsLookup data "mch_id")) = true →
      validateFields E cfg data = some WechatError.invalidMchId) ∧
    (strictEqStr "FAIL" (jsLookup data "return_code") = false →
      strictEqStr "FAIL" (jsLookup data "result_code") = false →
      (jsTruthy (jsLookup data "appid") &&
        !strictEqStr cfg.appId (jsLookup data "appid")) = false →
      (jsTruthy (jsLookup data "mch_id") &&
        !strictEqStr cfg.mchId (jsLookup data "mch_id")) = false →
      (jsTruthy (jsLookup data "mchid") &&
        !strictEqStr cfg.mchId (jsLookup data "mchid")) = true →
      validateFields E cfg data = some WechatError.invalidMchId) ∧
    (strictEqStr "FAIL" (jsLookup data "return_code") = false →
      strictEqStr "FAIL" (jsLookup data "result_code") = false →
      (jsTruthy (jsLookup data "appid") &&
        !strictEqStr cfg.appId (jsLookup data "appid")) = false →
      (jsTruthy (jsLookup data "mch_id") &&
        !strictEqStr cfg.mchId (jsLookup data "mch_id")) = false →
      (jsTruthy (jsLookup data "mchid") &&
        !strictEqStr cfg.mchId (jsLookup data "mchid")) = false →
      (jsTruthy (JsValue.str cfg.subMchId) &&
        !strictEqStr cfg.subMchId (jsLookup data "sub_mch_id")) = true →
      validateFields E cfg data = some WechatError.invalidSubMchId) ∧
    (strictEqStr "FAIL" (jsLookup data "return_code") = false →
      strictEqStr "FAIL" (jsLookup data "result_code") = false →
      (jsTruthy (jsLookup data "appid") &&
        !strictEqStr cfg.appId (jsLookup data "appid")) = false →
      (jsTruthy (jsLookup data "mch_id") &&
        !strictEqStr cfg.mchId (jsLookup data "mch_id")) = false →
      (jsTruthy (jsLookup data "mchid") &&
        !strictEqStr cfg.mchId (jsLookup data "mchid")) = false →
      (jsTruthy (JsValue.str cfg.subMchId) &&
        !strictEqStr cfg.subMchId (jsLookup data "sub_mch_id")) = false →
      (jsTruthy (jsLookup data "sign") &&
        !strictEqStr (getSign E cfg.partnerKey data none)
          (jsLookup data "sign")) = true →
      validateFields E cfg data = some WechatError.invalidSignature) ∧
    (strictEqStr "FAIL" (jsLookup data "return_code") = false →
      strictEqStr "FAIL" (jsLookup data "result_code") = false →
      (jsTruthy (jsLookup data "appid") &&
        !strictEqStr cfg.appId (jsLookup data "appid")) = false →
      (jsTruthy (jsLookup data "mch_id") &&
        !strictEqStr cfg.mchId (jsLookup data "mch_id")) = false →
      (jsTruthy (jsLookup data "mchid") &&
        !strictEqStr cfg.mchId (jsLookup data "mchid")) = false →
      (jsTruthy (JsValue.str cfg.subMchId) &&
        !strictEqStr cfg.subMchId (jsLookup data "sub_mch_id")) = false →
      (jsTruthy (jsLookup data "sign") &&
        !strictEqStr (getSign E cfg.partnerKey data none)
          (jsLookup data "sign")) = false →
      validateFields E cfg data = none) := by
  refine ⟨?_, ?_, ?_, ?_, ?_, ?_, ?_, ?_⟩ <;>
    · intros
      simp only [validateFields]
      simp [*]

theorem claim_c4_witness :
    validateFields extSample cfgSample
        [("return_code", JsValue.str "SUCCESS"), ("result_code", JsValue.str "FAIL"),
         ("err_code", JsValue.str "E1")]
      = some (WechatError.businessError (jsLookup
          [("return_code", JsValue.str "SUCCESS"), ("result_code", JsValue.str "FAIL"),
           ("err_code", JsValue.str "E1")] "err_code")) ∧
    validateFields extSample cfgSample
        [("return_code", JsValue.str "SUCCESS"), ("appid", JsValue.str "other"),
         ("sign", JsValue.str "AB12")]
      = some WechatError.invalidAppId :=
  ⟨(claim_c4 extSample cfgSample _).2.1 (by decide) (by decide),
   (claim_c4 extSample cfgSample _).2.2.1 (by decide) (by decide) (by decide)⟩

/-- Claim C6: request building fails exactly when some required entry (a
single field name or a pipe-separated alternative list) has no truthy
alternative in the built parameter map; the failure message names every
unsatisfied entry comma-joined, and the outcome is the same for every
transport, i.e. it is produced locally before any network exchange. -/
theorem claim_c6 (E : ExternalFns) (cfg : Config) (nonce : String)
    (urlKind : UrlKind) (params : FieldMap) (required : List String)
    (transport : TransportResult) :
    signedQuery E cfg nonce urlKind params required transport
        = some (CallbackEvent.failMsg ("missing params " ++
            joinComma (missingParams
              (signedQueryParams E cfg nonce urlKind params) required)))
      ↔ ∃ key ∈ required,
          entryUnsatisfied (signedQueryParams E cfg nonce urlKind params) key
            = true := by
  simp only [signedQuery]
  by_cases hm :
      (missingParams (signedQueryParams E cfg nonce urlKind params) required).isEmpty
  · rw [if_pos hm]
    have hnil :
        missingParams (signedQueryParams E cfg nonce urlKind params) required
          = [] := List.isEmpty_iff.mp hm
    constructor
    · intro hc
      exfalso
      cases transport with
      | ok body => simp at hc
      | failed => simp at hc
    · rintro ⟨key, hkmem, hku⟩
      exfalso
      have hall := List.filter_eq_nil_iff.mp hnil key hkmem
      exact hall hku
  · rw [if_neg hm]
    constructor
    · intro _
      have hne :
          missingParams (signedQueryParams E cfg nonce urlKind params) required
            ≠ [] := by
        intro hh
        rw [hh] at hm
        exact hm rfl
      obtain ⟨key, hkmem⟩ := List.exists_mem_of_ne_nil _ hne
      have hmem2 := List.mem_filter.mp hkmem
      exact ⟨key, hmem2.1, hmem2.2⟩
    · intro _
      rfl

/-- Claim C7, counterexample: with a configured sub-merchant id, a response
lacking the sub_mch_id field entirely (here carrying only
return_code=SUCCESS) is rejected with InvalidSubMchId, so absence of that
identity field does by itself produce an error. -/
theorem claim_c7_counterexample :
    hasKey [("return_code", JsValue.str "SUCCESS")] "sub_mch_id" = false ∧
    validateFields extSample cfgSubSample [("return_code", JsValue.str "SUCCESS")]
      = some WechatError.invalidSubMchId :=
  ⟨by decide, by decide⟩

/-- Claim C7 (amended): the app-id check never fires on a response whose
appid field is absent (falsy), and the merchant-id check never fires when
both its field spellings are absent, for any client configuration; the
sub-merchant check is instead keyed on the configuration: it never fires
when no sub-merchant id is configured, and a client configured with one
rejects a response lacking sub_mch_id with InvalidSubMchId. -/
theorem claim_c7_amended :
    (∀ (E : ExternalFns) (cfg : Config) (data : FieldMap),
      jsTruthy (jsLookup data "appid") = false →
      validateFields E cfg data ≠ some WechatError.invalidAppId) ∧
    (∀ (E : ExternalFns) (cfg : Config) (data : FieldMap),
      jsTruthy (jsLookup data "mch_id") = false →
      jsTruthy (jsLookup data "mchid") = false →
      validateFields E cfg data ≠ some WechatError.invalidMchId) ∧
    (∀ (E : ExternalFns) (cfg : Config) (data : FieldMap),
      cfg.subMchId = "" →
      validateFields E cfg data ≠ some WechatError.invalidSubMchId) ∧
    (∀ (E : ExternalFns) (cfg : Config) (data : FieldMap),
      strictEqStr "FAIL" (jsLookup data "return_code") = false →
      strictEqStr "FAIL" (jsLookup data "result_code") = false →
      jsTruthy (jsLookup data "appid") = false →
      jsTruthy (jsLookup data "mch_id") = false →
      jsTruthy (jsLookup data "mchid") = false →
      cfg.subMchId ≠ "" →
      jsLookup data "sub_mch_id" = JsValue.undef →
      validateFields E cfg data = some WechatError.invalidSubMchId) := by
  refine ⟨?_, ?_, ?_, ?_⟩
  · intro E cfg data h1
    simp only [validateFields, h1, Bool.false_and]
    split_ifs <;> simp_all
  · intro E cfg data h1 h2
    simp only [validateFields, h1, h2, Bool.false_and]
    split_ifs <;> simp_all
  · intro E cfg data h1
    have hsub : jsTruthy (JsValue.str cfg.subMchId) = false := by
      rw [h1]
      decide
    simp only [validateFields, hsub, Bool.false_and]
    split_ifs <;> simp_all
  · intro E cfg data h1 h2 h3 h4 h5 h6 h7
    have h8 : jsTruthy (JsValue.str cfg.subMchId) = true := by
      simpa [jsTruthy, bne_iff_ne] using h6
    have h9 : strictEqStr cfg.subMchId (jsLookup data "sub_mch_id") = false := by
      rw [h7]
      rfl
    simp only [validateFields, h1, h2, h3, h4, h5, h8, h9, Bool.false_and]
    simp

theorem claim_c7_witness :
    validateFields extSample cfgSubSample
        [("sub_mch_id", JsValue.str "sub1"), ("return_code", JsValue.str "SUCCESS")]
      ≠ some WechatError.invalidAppId ∧
    validateFields extSample cfgSample [("return_code", JsValue.str "SUCCESS")]
      ≠ some WechatError.invalidMchId ∧
    validateFields extSample cfgSample [("return_code", JsValue.str "SUCCESS")]
      ≠ some WechatError.invalidSubMchId ∧
    validateFields extSample cfgSubSample [("result_code", JsValue.str "SUCCESS")]
      = some WechatError.invalidSubMchId :=
  ⟨claim_c7_amended.1 extSample cfgSubSample _ (by decide),
   claim_c7_amended.2.1 extSample cfgSample _ (by decide) (by decide),
   claim_c7_amended.2.2.1 extSample cfgSample _ rfl,
   claim_c7_amended.2.2.2 extSample cfgSubSample _ (by decide) (by decide)
     (by decide) (by decide) (by decide) (by decide) (by decide)⟩

theorem eq_false_of_ne_true {b : Bool} (h : b ≠ true) : b = false := by
  cases b
  · rfl
  · exact absurd rfl h

theorem jsLookup_append_left {l1 l2 : FieldMap} {k : String}
    (h : hasKey l1 k = true) : jsLookup (l1 ++ l2) k = jsLookup l1 k := by
  rw [jsLookup_append, if_pos h]

theorem jsLookup_append_right {l1 l2 : FieldMap} {k : String}
    (h : hasKey l1 k = false) : jsLookup (l1 ++ l2) k = jsLookup l2 k := by
  rw [jsLookup_append, if_neg (by simp [h])]

theorem hasKey_append_left {l1 l2 : FieldMap} {k : String}
    (h : hasKey l1 k = true) : hasKey (l1 ++ l2) k = true := by
  rw [hasKey_append, h]
  rfl

theorem hasKey_append_false {l1 l2 : FieldMap} {k : String}
    (h1 : hasKey l1 k = false) (h2 : hasKey l2 k = false) :
    hasKey (l1 ++ l2) k = false := by
  rw [hasKey_append, h1, h2]
  rfl

theorem hasKey_true_of_lookup_ne_undef {l : FieldMap} {k : String}
    (h : jsLookup l k ≠ JsValue.undef) : hasKey l k = true := by
  cases hq : hasKey l k
  · exact absurd (jsLookup_eq_undef_of_hasKey_eq_false hq) h
  · rfl

theorem jsLookup_map_pair (g : String → JsValue) (ks : List String)
    (hnd : ks.Nodup) (k : String) (hk : k ∈ ks) :
    jsLookup (ks.map fun k2 => (k2, g k2)) k = g k := by
  refine jsLookup_of_mem ?_ ?_
  · rw [objKeys_map_pair]
    exact hnd
  · exact List.mem_map_of_mem _ hk

theorem isStrVal_jsLookup_defaultsMap (cfg : Config) (nonce : String)
    (k : String) (h : jsTruthy (jsLookup (defaultsMap cfg nonce) k) = true) :
    isStrVal (jsLookup (defaultsMap cfg nonce) k) = true := by
  cases hv : jsLookup (defaultsMap cfg nonce) k with
  | str s => rfl
  | undef => rw [hv] at h; exact absurd h (by decide)
  | null => rw [hv] at h; exact absurd h (by decide)
  | num n =>
    exfalso
    have hb : hasKey (defaultsMap cfg nonce) k = true := by
      cases hq : hasKey (defaultsMap cfg nonce) k
      · rw [jsLookup_eq_undef_of_hasKey_eq_false hq] at hv
        exact JsValue.noConfusion hv
      · rfl
    have hm := mem_of_hasKey hb
    rw [hv] at hm
    simp [defaultsMap] at hm

theorem hasKey_defaultsProfile_iff (cfg : Config) (nonce : String) (k : String) :
    hasKey (defaultsProfile cfg nonce) k = true
      ↔ k ∈ defaultKeysFor UrlKind.other ∧
          jsTruthy (jsLookup (defaultsMap cfg nonce) k) = true := by
  rw [hasKey_iff_mem]
  rw [show objKeys (defaultsProfile cfg nonce)
    = (defaultKeysFor UrlKind.other).filter
        (fun k2 => jsTruthy (jsLookup (defaultsMap cfg nonce) k2))
    from objKeys_map_pair _ _]
  exact List.mem_filter

theorem hasKey_defaultsProfile_false (cfg : Config) (nonce : String)
    {k : String} (h : k ∉ defaultKeysFor UrlKind.other) :
    hasKey (defaultsProfile cfg nonce) k = false := by
  refine eq_false_of_ne_true ?_
  intro hq
  exact h ((hasKey_defaultsProfile_iff cfg nonce k).mp hq).1

theorem jsLookup_defaultsProfile (cfg : Config) (nonce : String) (k : String)
    (hk : k ∈ defaultKeysFor UrlKind.other) :
    jsLookup (defaultsProfile cfg nonce) k
      = if jsTruthy (jsLookup (defaultsMap cfg nonce) k) = true then
          jsLookup (defaultsMap cfg nonce) k
        else JsValue.undef := by
  by_cases hc : jsTruthy (jsLookup (defaultsMap cfg nonce) k) = true
  · rw [if_pos hc]
    exact jsLookup_map_pair _ _ (List.Nodup.filter _ (by decide))
      k (List.mem_filter.mpr ⟨hk, hc⟩)
  · rw [if_neg hc]
    refine jsLookup_eq_undef_of_hasKey_eq_false (eq_false_of_ne_true ?_)
    intro hq
    exact hc ((hasKey_defaultsProfile_iff cfg nonce k).mp hq).2

theorem hasKey_reserved_false {business : FieldMap}
    (hres : ∀ kv ∈ business, kv.1 ∉ reservedRespKeys) {k : String}
    (hk : k ∈ reservedRespKeys) : hasKey business k = false := by
  refine eq_false_of_ne_true ?_
  intro hq
  exact hres _ (mem_of_hasKey hq) hk

theorem jsLookup_defaultsMap_appid (cfg : Config) (nonce : String) :
    jsLookup (defaultsMap cfg nonce) "appid" = JsValue.str cfg.appId := by
  rw [defaultsMap, jsLookup_cons, if_pos rfl]

theorem jsLookup_defaultsMap_mchId (cfg : Config) (nonce : String) :
    jsLookup (defaultsMap cfg nonce) "mch_id" = JsValue.str cfg.mchId := by
  rw [defaultsMap, jsLookup_cons, if_neg (by decide), jsLookup_cons, if_pos rfl]

theorem jsLookup_defaultsMap_subMchId (cfg : Config) (nonce : String) :
    jsLookup (defaultsMap cfg nonce) "sub_mch_id" = JsValue.str cfg.subMchId := by
  rw [defaultsMap, jsLookup_cons, if_neg (by decide), jsLookup_cons,
    if_neg (by decide), jsLookup_cons, if_pos rfl]

theorem signedQueryParams_other_eq (E : ExternalFns) (cfg : Config)
    (nonce : String) (business : FieldMap)
    (hnd : (objKeys business).Nodup)
    (hstr : ∀ kv ∈ business, isStrVal kv.2 = true)
    (hres : ∀ kv ∈ business, kv.1 ∉ reservedRespKeys) :
    signedQueryParams E cfg nonce UrlKind.other business
      = ("sign", JsValue.str (getSign E cfg.partnerKey
            (defaultsProfile cfg nonce ++ business) none))
          :: (defaultsProfile cfg nonce ++ business) := by
  have hsubset : ∀ x ∈ defaultKeysFor UrlKind.other, x ∈ reservedRespKeys := by
    decide
  have hksnd : (defaultKeysFor UrlKind.other).Nodup := by decide
  have hbk : ∀ k ∈ objKeys business, k ∉ reservedRespKeys := by
    intro k hk
    obtain ⟨kv, hkv, hfst⟩ := List.mem_map.mp hk
    rw [← hfst]
    exact hres kv hkv
  have hdisj : ∀ k ∈ objKeys business, k ∉ defaultKeysFor UrlKind.other := by
    intro k hk hmem
    exact hbk k hk (hsubset k hmem)
  have hEO : extendWithDefault cfg nonce business (defaultKeysFor UrlKind.other)
      = defaultsProfile cfg nonce ++ business :=
    extendWithDefault_eq cfg nonce business _ hksnd hnd hdisj
  have hEOsub : ∀ k ∈ objKeys (defaultsProfile cfg nonce),
      k ∈ defaultKeysFor UrlKind.other := by
    intro k hk
    exact ((hasKey_defaultsProfile_iff cfg nonce k).mp (hasKey_iff_mem.mpr hk)).1
  have hndEO : (objKeys (defaultsProfile cfg nonce)).Nodup := by
    rw [show objKeys (defaultsProfile cfg nonce)
      = (defaultKeysFor UrlKind.other).filter
          (fun k2 => jsTruthy (jsLookup (defaultsMap cfg nonce) k2))
      from objKeys_map_pair _ _]
    exact List.Nodup.filter _ hksnd
  have hndMerged : (objKeys (defaultsProfile cfg nonce ++ business)).Nodup := by
    rw [objKeys, List.map_append]
    refine List.Nodup.append hndEO hnd ?_
    intro k hk1 hk2
    exact hdisj k hk2 (hEOsub k hk1)
  have hnosign : ∀ k ∈ objKeys (defaultsProfile cfg nonce ++ business),
      k ≠ "sign" := by
    intro k hk
    rw [objKeys, List.map_append, List.mem_append] at hk
    rcases hk with hk | hk
    · intro he
      have hmem := hEOsub k hk
      rw [he] at hmem
      exact absurd hmem (by decide)
    · intro he
      have hnot := hbk k hk
      rw [he] at hnot
      exact hnot (by decide)
  have hsignfresh : ∀ k ∈ objKeys (defaultsProfile cfg nonce ++ business),
      hasKey [("sign", JsValue.str (getSign E cfg.partnerKey
        (defaultsProfile cfg nonce ++ business) none))] k = false := by
    intro k hk
    rw [hasKey_cons]
    have h1 : ("sign" == k) = false := by
      simpa using Ne.symm (hnosign k hk)
    rw [h1]
    rfl
  have hparams2 : jsExtend [("sign", JsValue.str (getSign E cfg.partnerKey
        (defaultsProfile cfg nonce ++ business) none))]
      (defaultsProfile cfg nonce ++ business)
      = ("sign", JsValue.str (getSign E cfg.partnerKey
          (defaultsProfile cfg nonce ++ business) none))
        :: (defaultsProfile cfg nonce ++ business) := by
    rw [jsExtend_eq_append hndMerged hsignfresh]
    rfl
  have hlu : hasKey (("sign", JsValue.str (getSign E cfg.partnerKey
        (defaultsProfile cfg nonce ++ business) none))
        :: (defaultsProfile cfg nonce ++ business)) "long_url" = false := by
    rw [hasKey_cons, hasKey_append]
    have h1 : ("sign" == "long_url") = false := by decide
    have h2 : hasKey (defaultsProfile cfg nonce) "long_url" = false :=
      hasKey_defaultsProfile_false cfg nonce (by decide)
    have h3 : hasKey business "long_url" = false :=
      hasKey_reserved_false hres (by decide)
    rw [h1, h2, h3]
    rfl
  have hluv : jsLookup (("sign", JsValue.str (getSign E cfg.partnerKey
        (defaultsProfile cfg nonce ++ business) none))
        :: (defaultsProfile cfg nonce ++ business)) "long_url" = JsValue.undef :=
    jsLookup_eq_undef_of_hasKey_eq_false hlu
  have hstrall : ∀ kv ∈ ("sign", JsValue.str (getSign E cfg.partnerKey
        (defaultsProfile cfg nonce ++ business) none))
        :: (defaultsProfile cfg nonce ++ business), isStrVal kv.2 = true := by
    intro kv hkv
    rcases List.mem_cons.mp hkv with hkv | hkv
    · rw [hkv]
      rfl
    · rw [List.mem_append] at hkv
      rcases hkv with hkv | hkv
      · obtain ⟨k, hkf, hpair⟩ := List.mem_map.mp hkv
        have hc := (List.mem_filter.mp hkf).2
        rw [← hpair]
        exact isStrVal_jsLookup_defaultsMap cfg nonce k hc
      · exact hstr kv hkv
  simp only [signedQueryParams]
  rw [hEO, hparams2, hluv]
  rw [if_neg (by decide)]
  exact coerceStrings_eq_self hstrall

theorem jsLookup_resp_pass (M : FieldMap) (s1 : String) (k : String)
    (h1 : k ≠ "return_code") (h2 : k ≠ "result_code") (h3 : k ≠ "sign") :
    jsLookup (([("return_code", JsValue.str "SUCCESS"),
        ("result_code", JsValue.str "SUCCESS")] ++ M)
        ++ [("sign", JsValue.str s1)]) k
      = jsLookup M k := by
  have hrc : hasKey [("return_code", JsValue.str "SUCCESS"),
      ("result_code", JsValue.str "SUCCESS")] k = false := by
    rw [hasKey_cons, hasKey_cons]
    have e1 : ("return_code" == k) = false := by simpa using Ne.symm h1
    have e2 : ("result_code" == k) = false := by simpa using Ne.symm h2
    rw [e1, e2]
    rfl
  by_cases hq : hasKey M k = true
  · rw [jsLookup_append_left (by rw [hasKey_append, hrc, hq]; rfl)]
    exact jsLookup_append_right hrc
  · have hqf : hasKey M k = false := eq_false_of_ne_true hq
    rw [jsLookup_append_right (by rw [hasKey_append, hrc, hqf]; rfl)]
    rw [jsLookup_cons, if_neg (Ne.symm h3)]
    rw [jsLookup_eq_undef_of_hasKey_eq_false hqf]
    rfl

theorem roundtrip_validate (E : ExternalFns) (cfg : Config) (M : FieldMap)
    (hMnosign : hasKey M "sign" = false)
    (hAppid : jsLookup M "appid" = JsValue.undef ∨
      jsLookup M "appid" = JsValue.str cfg.appId)
    (hMch : jsLookup M "mch_id" = JsValue.undef ∨
      jsLookup M "mch_id" = JsValue.str cfg.mchId)
    (hMchid : jsLookup M "mchid" = JsValue.undef)
    (hSub : cfg.subMchId = "" ∨
      jsLookup M "sub_mch_id" = JsValue.str cfg.subMchId) :
    validateFields E cfg
      (([("return_code", JsValue.str "SUCCESS"),
          ("result_code", JsValue.str "SUCCESS")] ++ M)
        ++ [("sign", JsValue.str (getSign E cfg.partnerKey
              ([("return_code", JsValue.str "SUCCESS"),
                ("result_code", JsValue.str "SUCCESS")] ++ M) none))]) = none := by
  have hL1 : jsLookup (([("return_code", JsValue.str "SUCCESS"),
      ("result_code", JsValue.str "SUCCESS")] ++ M)
        ++ [("sign", JsValue.str (getSign E cfg.partnerKey
              ([("return_code", JsValue.str "SUCCESS"),
                ("result_code", JsValue.str "SUCCESS")] ++ M) none))])
      "return_code" = JsValue.str "SUCCESS" := by
    rw [jsLookup_append_left (hasKey_append_left (by decide))]
    rw [jsLookup_append_left (by decide)]
    decide
  have hL2 : jsLookup (([("return_code", JsValue.str "SUCCESS"),
      ("result_code", JsValue.str "SUCCESS")] ++ M)
        ++ [("sign", JsValue.str (getSign E cfg.partnerKey
              ([("return_code", JsValue.str "SUCCESS"),
                ("result_code", JsValue.str "SUCCESS")] ++ M) none))])
      "result_code" = JsValue.str "SUCCESS" := by
    rw [jsLookup_append_left (hasKey_append_left (by decide))]
    rw [jsLookup_append_left (by decide)]
    decide
  have hc1 : strictEqStr "FAIL" (jsLookup (([("return_code", JsValue.str "SUCCESS"),
      ("result_code", JsValue.str "SUCCESS")] ++ M)
        ++ [("sign", JsValue.str (getSign E cfg.partnerKey
              ([("return_code", JsValue.str "SUCCESS"),
                ("result_code", JsValue.str "SUCCESS")] ++ M) none))])
      "return_code") = false := by
    rw [hL1]
    decide
  have hc2 : strictEqStr "FAIL" (jsLookup (([("return_code", JsValue.str "SUCCESS"),
      ("result_code", JsValue.str "SUCCESS")] ++ M)
        ++ [("sign", JsValue.str (getSign E cfg.partnerKey
              ([("return_code", JsValue.str "SUCCESS"),
                ("result_code", JsValue.str "SUCCESS")] ++ M) none))])
      "result_code") = false := by
    rw [hL2]
    decide
  have hc3 : (jsTruthy (jsLookup (([("return_code", JsValue.str "SUCCESS"),
      ("result_code", JsValue.str "SUCCESS")] ++ M)
        ++ [("sign", JsValue.str (getSign E cfg.partnerKey
              ([("return_code", JsValue.str "SUCCESS"),
                ("result_code", JsValue.str "SUCCESS")] ++ M) none))]) "appid") &&
      !strictEqStr cfg.appId (jsLookup (([("return_code", JsValue.str "SUCCESS"),
      ("result_code", JsValue.str "SUCCESS")] ++ M)
        ++ [("sign", JsValue.str (getSign E cfg.partnerKey
              ([("return_code", JsValue.str "SUCCESS"),
                ("result_code", JsValue.str "SUCCESS")] ++ M) none))]) "appid"))
      = false := by
    rw [jsLookup_resp_pass M _ "appid" (by decide) (by decide) (by decide)]
    rcases hAppid with h | h <;> rw [h] <;> simp [jsTruthy, strictEqStr]
  have hc4 : (jsTruthy (jsLookup (([("return_code", JsValue.str "SUCCESS"),
      ("result_code", JsValue.str "SUCCESS")] ++ M)
        ++ [("sign", JsValue.str (getSign E cfg.partnerKey
              ([("return_code", JsValue.str "SUCCESS"),
                ("result_code", JsValue.str "SUCCESS")] ++ M) none))]) "mch_id") &&
      !strictEqStr cfg.mchId (jsLookup (([("return_code", JsValue.str "SUCCESS"),
      ("result_code", JsValue.str "SUCCESS")] ++ M)
        ++ [("sign", JsValue.str (getSign E cfg.partnerKey
              ([("return_code", JsValue.str "SUCCESS"),
                ("result_code", JsValue.str "SUCCESS")] ++ M) none))]) "mch_id"))
      = false := by
    rw [jsLookup_resp_pass M _ "mch_id" (by decide) (by decide) (by decide)]
    rcases hMch with h | h <;> rw [h] <;> simp [jsTruthy, strictEqStr]
  have hc5 : (jsTruthy (jsLookup (([("return_code", JsValue.str "SUCCESS"),
      ("result_code", JsValue.str "SUCCESS")] ++ M)
        ++ [("sign", JsValue.str (getSign E cfg.partnerKey
              ([("return_code", JsValue.str "SUCCESS"),
                ("result_code", JsValue.str "SUCCESS")] ++ M) none))]) "mchid") &&
      !strictEqStr cfg.mchId (jsLookup (([("return_code", JsValue.str "SUCCESS"),
      ("result_code", JsValue.str "SUCCESS")] ++ M)
        ++ [("sign", JsValue.str (getSign E cfg.partnerKey
              ([("return_code", JsValue.str "SUCCESS"),
                ("result_code", JsValue.str "SUCCESS")] ++ M) none))]) "mchid"))
      = false := by
    rw [jsLookup_resp_pass M _ "mchid" (by decide) (by decide) (by decide)]
    rw [hMchid]
    simp [jsTruthy, strictEqStr]
  have hc6 : (jsTruthy (JsValue.str cfg.subMchId) &&
      !strictEqStr cfg.subMchId (jsLookup (([("return_code", JsValue.str "SUCCESS"),
      ("result_code", JsValue.str "SUCCESS")] ++ M)
        ++ [("sign", JsValue.str (getSign E cfg.partnerKey
              ([("return_code", JsValue.str "SUCCESS"),
                ("result_code", JsValue.str "SUCCESS")] ++ M) none))]) "sub_mch_id"))
      = false := by
    rcases hSub with h | h
    · rw [h]
      simp [jsTruthy]
    · rw [jsLookup_resp_pass M _ "sub_mch_id" (by decide) (by decide) (by decide), h]
      simp [strictEqStr]
  have hbs : hasKey ([("return_code", JsValue.str "SUCCESS"),
      ("result_code", JsValue.str "SUCCESS")] ++ M) "sign" = false :=
    hasKey_append_false (by decide) hMnosign
  have hLs : jsLookup (([("return_code", JsValue.str "SUCCESS"),
      ("result_code", JsValue.str "SUCCESS")] ++ M)
        ++ [("sign", JsValue.str (getSign E cfg.partnerKey
              ([("return_code", JsValue.str "SUCCESS"),
                ("result_code", JsValue.str "SUCCESS")] ++ M) none))]) "sign"
      = JsValue.str (getSign E cfg.partnerKey
          ([("return_code", JsValue.str "SUCCESS"),
            ("result_code", JsValue.str "SUCCESS")] ++ M) none) := by
    rw [jsLookup_append_right hbs, jsLookup_cons, if_pos rfl]
  have hgs : getSign E cfg.partnerKey
      (([("return_code", JsValue.str "SUCCESS"),
          ("result_code", JsValue.str "SUCCESS")] ++ M)
        ++ [("sign", JsValue.str (getSign E cfg.partnerKey
              ([("return_code", JsValue.str "SUCCESS"),
                ("result_code", JsValue.str "SUCCESS")] ++ M) none))]) none
      = getSign E cfg.partnerKey
          ([("return_code", JsValue.str "SUCCESS"),
            ("result_code", JsValue.str "SUCCESS")] ++ M) none := by
    refine getSign_congr E cfg.partnerKey ?_ none
    rw [removeKey_append]
    rw [show removeKey [("sign", JsValue.str (getSign E cfg.partnerKey
        ([("return_code", JsValue.str "SUCCESS"),
          ("result_code", JsValue.str "SUCCESS")] ++ M) none))] "sign" = []
      from by rw [removeKey_cons, if_pos rfl]; rfl]
    rw [List.append_nil]
  have hc7 : (jsTruthy (jsLookup (([("return_code", JsValue.str "SUCCESS"),
      ("result_code", JsValue.str "SUCCESS")] ++ M)
        ++ [("sign", JsValue.str (getSign E cfg.partnerKey
              ([("return_code", JsValue.str "SUCCESS"),
                ("result_code", JsValue.str "SUCCESS")] ++ M) none))]) "sign") &&
      !strictEqStr (getSign E cfg.partnerKey
          (([("return_code", JsValue.str "SUCCESS"),
              ("result_code", JsValue.str "SUCCESS")] ++ M)
            ++ [("sign", JsValue.str (getSign E cfg.partnerKey
                  ([("return_code", JsValue.str "SUCCESS"),
                    ("result_code", JsValue.str "SUCCESS")] ++ M) none))]) none)
        (jsLookup (([("return_code", JsValue.str "SUCCESS"),
          ("result_code", JsValue.str "SUCCESS")] ++ M)
            ++ [("sign", JsValue.str (getSign E cfg.partnerKey
                  ([("return_code", JsValue.str "SUCCESS"),
                    ("result_code", JsValue.str "SUCCESS")] ++ M) none))]) "sign"))
      = false := by
    rw [hLs, hgs]
    simp [strictEqStr]
  simp only [validateFields, hc1, hc2, hc3, hc4, hc5, hc6, hc7]
  simp

/-- Claim C3: building a request for a field map of business fields (with
unique, non-reserved names and string values) and validating a synthetic
response that carries the request's fields under success status codes with a
signature recomputed from the same shared secret succeeds, and the response
contains the original business fields. -/
theorem claim_c3 (E : ExternalFns) (cfg : Config) (nonce : String)
    (business : FieldMap)
    (hnd : (objKeys business).Nodup)
    (hstr : ∀ kv ∈ business, isStrVal kv.2 = true)
    (hres : ∀ kv ∈ business, kv.1 ∉ reservedRespKeys) :
    validateFields E cfg
        (syntheticResponse E cfg
          (signedQueryParams E cfg nonce UrlKind.other business)) = none ∧
    ∀ kv ∈ business,
      kv ∈ syntheticResponse E cfg
        (signedQueryParams E cfg nonce UrlKind.other business) := by
  have hreq := signedQueryParams_other_eq E cfg nonce business hnd hstr hres
  have hMsign : hasKey (defaultsProfile cfg nonce ++ business) "sign" = false :=
    hasKey_append_false (hasKey_defaultsProfile_false cfg nonce (by decide))
      (hasKey_reserved_false hres (by decide))
  have hremove : removeKey (("sign", JsValue.str (getSign E cfg.partnerKey
        (defaultsProfile cfg nonce ++ business) none))
        :: (defaultsProfile cfg nonce ++ business)) "sign"
      = defaultsProfile cfg nonce ++ business := by
    rw [removeKey_cons, if_pos rfl]
    exact removeKey_eq_self hMsign
  have hsynth : syntheticResponse E cfg
        (("sign", JsValue.str (getSign E cfg.partnerKey
          (defaultsProfile cfg nonce ++ business) none))
          :: (defaultsProfile cfg nonce ++ business))
      = ([("return_code", JsValue.str "SUCCESS"),
          ("result_code", JsValue.str "SUCCESS")]
            ++ (defaultsProfile cfg nonce ++ business))
        ++ [("sign", JsValue.str (getSign E cfg.partnerKey
              ([("return_code", JsValue.str "SUCCESS"),
                ("result_code", JsValue.str "SUCCESS")]
                ++ (defaultsProfile cfg nonce ++ business)) none))] := by
    simp only [syntheticResponse]
    rw [hremove]
  have hAppid : jsLookup (defaultsProfile cfg nonce ++ business) "appid"
        = JsValue.undef ∨
      jsLookup (defaultsProfile cfg nonce ++ business) "appid"
        = JsValue.str cfg.appId := by
    by_cases hc : jsTruthy (jsLookup (defaultsMap cfg nonce) "appid") = true
    · right
      have hpl : jsLookup (defaultsProfile cfg nonce) "appid"
          = JsValue.str cfg.appId := by
        rw [jsLookup_defaultsProfile cfg nonce "appid" (by decide), if_pos hc,
          jsLookup_defaultsMap_appid]
      rw [jsLookup_append_left (hasKey_true_of_lookup_ne_undef
        (by rw [hpl]; exact fun hh => JsValue.noConfusion hh))]
      exact hpl
    · left
      have hpf : hasKey (defaultsProfile cfg nonce) "appid" = false := by
        refine eq_false_of_ne_true ?_
        intro hq
        exact hc ((hasKey_defaultsProfile_iff cfg nonce "appid").mp hq).2
      rw [jsLookup_append_right hpf]
      exact jsLookup_eq_undef_of_hasKey_eq_false
        (hasKey_reserved_false hres (by decide))
  have hMch : jsLookup (defaultsProfile cfg nonce ++ business) "mch_id"
        = JsValue.undef ∨
      jsLookup (defaultsProfile cfg nonce ++ business) "mch_id"
        = JsValue.str cfg.mchId := by
    by_cases hc : jsTruthy (jsLookup (defaultsMap cfg nonce) "mch_id") = true
    · right
      have hpl : jsLookup (defaultsProfile cfg nonce) "mch_id"
          = JsValue.str cfg.mchId := by
        rw [jsLookup_defaultsProfile cfg nonce "mch_id" (by decide), if_pos hc,
          jsLookup_defaultsMap_mchId]
      rw [jsLookup_append_left (hasKey_true_of_lookup_ne_undef
        (by rw [hpl]; exact fun hh => JsValue.noConfusion hh))]
      exact hpl
    · left
      have hpf : hasKey (defaultsProfile cfg nonce) "mch_id" = false := by
        refine eq_false_of_ne_true ?_
        intro hq
        exact hc ((hasKey_defaultsProfile_iff cfg nonce "mch_id").mp hq).2
      rw [jsLookup_append_right hpf]
      exact jsLookup_eq_undef_of_hasKey_eq_false
        (hasKey_reserved_false hres (by decide))
  have hMchid : jsLookup (defaultsProfile cfg nonce ++ business) "mchid"
      = JsValue.undef :=
    jsLookup_eq_undef_of_hasKey_eq_false
      (hasKey_append_false (hasKey_defaultsProfile_false cfg nonce (by decide))
        (hasKey_reserved_false hres (by decide)))
  have hSub : cfg.subMchId = "" ∨
      jsLookup (defaultsProfile cfg nonce ++ business) "sub_mch_id"
        = JsValue.str cfg.subMchId := by
    by_cases hs : cfg.subMchId = ""
    · exact Or.inl hs
    · right
      have hc : jsTruthy (jsLookup (defaultsMap cfg nonce) "sub_mch_id") = true := by
        rw [jsLookup_defaultsMap_subMchId]
        simpa [jsTruthy, bne_iff_ne] using hs
      have hpl : jsLookup (defaultsProfile cfg nonce) "sub_mch_id"
          = JsValue.str cfg.subMchId := by
        rw [jsLookup_defaultsProfile cfg nonce "sub_mch_id" (by decide), if_pos hc,
          jsLookup_defaultsMap_subMchId]
      rw [jsLookup_append_left (hasKey_true_of_lookup_ne_undef
        (by rw [hpl]; exact fun hh => JsValue.noConfusion hh))]
      exact hpl
  constructor
  · rw [hreq, hsynth]
    exact roundtrip_validate E cfg (defaultsProfile cfg nonce ++ business)
      hMsign hAppid hMch hMchid hSub
  · intro kv hkv
    rw [hreq, hsynth]
    exact List.mem_append_left _
      (List.mem_append_right _ (List.mem_append_right _ hkv))

theorem claim_c3_witness :
    validateFields extSample cfgSample
        (syntheticResponse extSample cfgSample
          (signedQueryParams extSample cfgSample "n1" UrlKind.other
            [("body", JsValue.str "T")])) = none ∧
    ∀ kv ∈ [("body", JsValue.str "T")],
      kv ∈ syntheticResponse extSample cfgSample
        (signedQueryParams extSample cfgSample "n1" UrlKind.other
          [("body", JsValue.str "T")]) :=
  claim_c3 extSample cfgSample "n1" _ (by decide) (by decide) (by decide)

end WechatPay
